import Mathlib

/-!
SchemaGrid: verification of the schema-driven row validation and column generation

Shallow embedding of the core logic of the SchemaGrid repository:

* `validateRow` — per-row validation against a JSON-Schema-like record schema
  (source: `src/lib/utils.ts` `validateDataWithSchema` and the identical
  `validateRow` in `src/components/SchemaGrid/SchemaGrid.tsx`);
* `getDefaultColDef` / `generatedColumnDefs` — column-descriptor generation
  (source: `src/components/SchemaGrid/columnUtils.ts` `getDefaultColDef` and
  the `generatedColumnDefs` memo in `SchemaGrid.tsx`).

The per-field constraint checker is the external Ajv library
(`ajv.compile(fieldSchema)` followed by `ajvValidate(value)`); it is not code
of this repository, so it is modelled as an abstract parameter
`Checker : FieldSchema → Value → List (Option String)` returning the list of
violations Ajv reports, each with an optional descriptive message
(`error.message`, which may be absent).  The repository's own logic —
iteration order, the required-field short circuit, skipping of unset optional
fields, and the message fallback — is embedded exactly.
-/

namespace SchemaGrid

/-- A JavaScript primitive value as it appears in a row cell: `null`, a
string, a number, or a boolean.  Absence of a key is modelled by `Option`
at the use site (`none` = the row has no such key, i.e. `undefined`). -/
inductive Value where
  | vnull : Value
  | vstr : String → Value
  | vnum : Rat → Value
  | vbool : Bool → Value
deriving DecidableEq, Repr

/-- The constraint set for one property of a `RecordSchema`
(spec §3 FieldSchema; in the source these are plain JSON objects).
All constraint keywords are optional. -/
structure FieldSchema where
  type : Option String := none
  title : Option String := none
  enum : Option (List Value) := none
  format : Option String := none
  pattern : Option String := none
  minLength : Option Nat := none
  maxLength : Option Nat := none
  minimum : Option Rat := none
  maximum : Option Rat := none
  hidden : Bool := false
  width : Option Nat := none
deriving DecidableEq, Repr

/-- The schema for one row (spec §3 RecordSchema).  `properties` is an
association list because a JavaScript object's keys are ordered by insertion;
that order is the declaration order the code iterates with `Object.keys`.
A JavaScript object never has duplicate keys, so theorems that depend on
key uniqueness take `(properties.map Prod.fst).Nodup` as a hypothesis.
An absent `required` member is the empty list (`schema.required || []`). -/
structure RecordSchema where
  properties : List (String × FieldSchema)
  required : List String := []
deriving DecidableEq, Repr

/-- A row: an open mapping from field name to value.  A key that is absent
from the list is `undefined` in JavaScript (`List.lookup` returns `none`). -/
abbrev Row := List (String × Value)

/-- A single field-level validation error (source: `ValidationError` in
`SchemaGrid.tsx`, `{ field, message }`). -/
structure ValidationError where
  field : String
  message : String
deriving DecidableEq, Repr

/-- The external per-field constraint checker: Ajv's
`ajv.compile(fieldSchema)` applied to a value, abstracted as the list of
reported violations, each carrying Ajv's optional `error.message`. -/
abbrev Checker := FieldSchema → Value → List (Option String)

/-- The test a required field's value must fail to be reported missing
(source: `value === null || value === undefined || value === ""`). -/
def isMissingRequired : Option Value → Bool
  | none => true
  | some Value.vnull => true
  | some (Value.vstr s) => s = ""
  | _ => false

/-- The test that skips an optional field
(source: `value === null || value === undefined`). -/
def isNullish : Option Value → Bool
  | none => true
  | some Value.vnull => true
  | _ => false

/-- The errors contributed by running the per-field checker on a present
value (source: lines 46–58 of `validateDataWithSchema`): each Ajv error
becomes `{ field, message: error.message || `Invalid ${field}` }`. -/
def checkerErrors (checker : Checker) (field : String) (fs : FieldSchema) :
    Option Value → List ValidationError
  | none => []
  | some v =>
      (checker fs v).map fun m =>
        { field := field, message := m.getD ("Invalid " ++ field) }

/-- The body of the per-field loop of `validateDataWithSchema`
(`src/lib/utils.ts` lines 29–59) / `validateRow` (`SchemaGrid.tsx` lines
148–178): a required field that is absent, null or the empty string yields
exactly the "is required" error and short-circuits; an optional field that
is absent or null is skipped; otherwise the value is run through the
per-field checker. -/
def fieldValidate (checker : Checker) (required : List String) (row : Row)
    (field : String) (fs : FieldSchema) : List ValidationError :=
  let value := List.lookup field row
  if required.contains field then
    if isMissingRequired value then
      [{ field := field, message := field ++ " is required" }]
    else
      checkerErrors checker field fs value
  else
    if isNullish value then []
    else checkerErrors checker field fs value

/-- Function `validateRow` / `validateDataWithSchema`: iterate the schema's
properties in declaration order, pushing each field's errors in turn. -/
def validateRow (checker : Checker) (schema : RecordSchema) (row : Row) :
    List ValidationError :=
  schema.properties.flatMap fun p =>
    fieldValidate checker schema.required row p.1 p.2

/-! ## Column generation (`columnUtils.ts` and the `generatedColumnDefs`
memo of `SchemaGrid.tsx`) -/

/-- The slice of an AG Grid `ColDef` that the repository's column generation
writes.  `valueFormatterCurrency` records the presence of the currency
`valueFormatter` closure (the closure's rendering output is UI and out of
scope); the `cellStyle` / `suppressKeyboardEvent` callbacks of the source are
likewise UI-only and not modelled. -/
structure ColDef where
  field : String
  editable : Bool := false
  headerName : Option String := none
  cellEditor : Option String := none
  cellEditorParamsValues : Option (List Value) := none
  cellRenderer : Option String := none
  valueFormatterCurrency : Bool := false
  hide : Bool := false
  width : Option Nat := none
deriving DecidableEq, Repr

/-- JavaScript string truthiness for `a || b` where `a` is an optional
string: the empty string is falsy, so `"" || b` is `b`. -/
def jsStringOr (a : Option String) (b : String) : String :=
  match a with
  | some t => if t = "" then b else t
  | none => b

/-- Whether `pat` is an initial segment of `s` (character lists). -/
def charsStartWith : List Char → List Char → Bool
  | [], _ => true
  | _ :: _, [] => false
  | a :: pat, b :: s => a = b && charsStartWith pat s

/-- Whether `pat` occurs contiguously somewhere in `s` (character lists). -/
def charsContain (pat : List Char) : List Char → Bool
  | [] => charsStartWith pat []
  | b :: s => charsStartWith pat (b :: s) || charsContain pat s

/-- Whether `pat` occurs as a contiguous substring of `s`
(JavaScript `s.includes(pat)`). -/
def strContainsSub (s pat : String) : Bool :=
  charsContain pat.data s.data

/-- ASCII lowercasing of one character (the effect of JavaScript
`toLowerCase` on the ASCII identifiers used as field names). -/
def charToLower (c : Char) : Char :=
  if 65 ≤ c.toNat ∧ c.toNat ≤ 90 then Char.ofNat (c.toNat + 32) else c

/-- JavaScript `field.toLowerCase()` on an ASCII field name. -/
def strToLower (s : String) : String :=
  ⟨s.data.map charToLower⟩

/-- The monetary-name test of `getDefaultColDef`
(`field.toLowerCase().includes("price") || ... "salary" || ... "cost" ||
... "amount"`). -/
def isCurrencyField (field : String) : Bool :=
  strContainsSub (strToLower field) "price" ||
    strContainsSub (strToLower field) "salary" ||
    strContainsSub (strToLower field) "cost" ||
    strContainsSub (strToLower field) "amount"

/-- The `switch (schema.type)` of `getDefaultColDef`
(`columnUtils.ts` lines 15–62).  `enum` and the date formats are examined
only inside the `"string"` case, exactly as in the source; an unrecognized
or absent `type` falls through unchanged. -/
def applyTypeConfig (field : String) (schema : FieldSchema) (colDef : ColDef) :
    ColDef :=
  match schema.type with
  | some "number" | some "integer" =>
      { colDef with
        cellEditor := some "agNumberCellEditor",
        valueFormatterCurrency :=
          if isCurrencyField field then true else colDef.valueFormatterCurrency }
  | some "string" =>
      match schema.enum with
      | some vs =>
          { colDef with
            cellEditor := some "agSelectCellEditor",
            cellEditorParamsValues := some vs }
      | none =>
          if schema.format = some "date" || schema.format = some "date-time" then
            { colDef with cellEditor := some "agDateStringCellEditor" }
          else colDef
  | some "boolean" =>
      { colDef with
        cellEditor := some "agCheckboxCellEditor",
        cellRenderer := some "agCheckboxCellRenderer" }
  | _ => colDef

/-- The truthy `hidden` hint of `getDefaultColDef`
(`if (schema.hidden) colDef.hide = true`). -/
def applyHidden (schema : FieldSchema) (colDef : ColDef) : ColDef :=
  if schema.hidden then { colDef with hide := true } else colDef

/-- The truthy `width` hint of `getDefaultColDef`
(`if (schema.width) colDef.width = schema.width`; `width: 0` is falsy in
JavaScript and sets nothing). -/
def applyWidth (schema : FieldSchema) (colDef : ColDef) : ColDef :=
  match schema.width with
  | some w => if w = 0 then colDef else { colDef with width := some w }
  | none => colDef

/-- The required-field header marker of `getDefaultColDef`
(`colDef.headerName = `${colDef.headerName || field}*``). -/
def applyRequiredMark (field : String) (fullSchema : RecordSchema)
    (colDef : ColDef) : ColDef :=
  if fullSchema.required.contains field then
    { colDef with headerName := some (jsStringOr colDef.headerName field ++ "*") }
  else colDef

/-- Function `getDefaultColDef` (`columnUtils.ts` lines 6–81): type-specific editor
configuration, then the truthy `hidden` and `width` hints, then the
required-field header marker, applied to the base definition in the order
the source mutates `colDef`. -/
def getDefaultColDef (field : String) (schema : FieldSchema)
    (baseColDef : ColDef) (fullSchema : RecordSchema) : ColDef :=
  applyRequiredMark field fullSchema
    (applyWidth schema (applyHidden schema (applyTypeConfig field schema baseColDef)))

/-- The base column definition built per field by the `generatedColumnDefs`
memo of `SchemaGrid.tsx` (lines 122–130):
`{ field, editable: true, headerName: schema.title || field, cellStyle: … }`
(the `cellStyle` callback is UI and not modelled). -/
def mkBaseColDef (field : String) (fs : FieldSchema) : ColDef :=
  { field := field
    editable := true
    headerName := some (jsStringOr fs.title field) }

/-- The full column-generation pipeline of `SchemaGrid.tsx` (lines 119–139):
one `getDefaultColDef` per schema property, in declaration order. -/
def generatedColumnDefs (schema : RecordSchema) : List ColDef :=
  schema.properties.map fun p =>
    getDefaultColDef p.1 p.2 (mkBaseColDef p.1 p.2) schema

/-- The editor kind a descriptor carries, read off the AG Grid editor
component name it was configured with (spec §4.2 `editorKind`); a
descriptor with no cell editor set uses the grid's plain-text default. -/
inductive EditorKind where
  | choiceList : List Value → EditorKind
  | numeric : EditorKind
  | date : EditorKind
  | checkbox : EditorKind
  | plainText : EditorKind
deriving DecidableEq, Repr

/-- Read the editor kind off a generated descriptor. -/
def ColDef.editorKind (c : ColDef) : EditorKind :=
  match c.cellEditor with
  | some "agSelectCellEditor" => .choiceList (c.cellEditorParamsValues.getD [])
  | some "agNumberCellEditor" => .numeric
  | some "agDateStringCellEditor" => .date
  | some "agCheckboxCellEditor" => .checkbox
  | _ => .plainText

/-- Specification-side label (spec §4.2, as amended): the field's `title`
when present and non-empty, else the field name, with a single `"*"`
appended when the field is listed in `required`. -/
def specLabel (f : String) (fs : FieldSchema) (req : List String) : String :=
  (match fs.title with
   | some t => if t = "" then f else t
   | none => f) ++ (if req.contains f then "*" else "")

/-- Specification-side editor-kind table (spec §4.2, as amended): the
declared `type` drives the choice; within `string`, an `enum` takes priority
over a date `format`; numeric types always use the numeric editor (even when
an `enum` is declared); anything else is plain text. -/
def specEditorKind (fs : FieldSchema) : EditorKind :=
  match fs.type with
  | some "number" | some "integer" => EditorKind.numeric
  | some "string" =>
      match fs.enum with
      | some vs => EditorKind.choiceList vs
      | none =>
          if fs.format = some "date" || fs.format = some "date-time" then
            EditorKind.date
          else EditorKind.plainText
  | some "boolean" => EditorKind.checkbox
  | _ => EditorKind.plainText

/-! ## Helper lemmas -/

theorem checkerErrors_field_eq (checker : Checker) (f : String) (fs : FieldSchema)
    (v : Option Value) : ∀ e ∈ checkerErrors checker f fs v, e.field = f := by
  intro e he
  cases v with
  | none => simp [checkerErrors] at he
  | some v =>
    simp only [checkerErrors, List.mem_map] at he
    obtain ⟨m, _, rfl⟩ := he
    rfl

theorem fieldValidate_field_eq (checker : Checker) (req : List String) (row : Row)
    (f : String) (fs : FieldSchema) :
    ∀ e ∈ fieldValidate checker req row f fs, e.field = f := by
  intro e he
  simp only [fieldValidate] at he
  split at he
  · split at he
    · simp only [List.mem_singleton] at he
      subst he
      rfl
    · exact checkerErrors_field_eq _ _ _ _ e he
  · split at he
    · simp at he
    · exact checkerErrors_field_eq _ _ _ _ e he

theorem flatMap_fieldValidate_field_mem (checker : Checker) (req : List String)
    (row : Row) (props : List (String × FieldSchema)) (e : ValidationError)
    (he : e ∈ props.flatMap fun p => fieldValidate checker req row p.1 p.2) :
    e.field ∈ props.map Prod.fst := by
  rw [List.mem_flatMap] at he
  obtain ⟨p, hp, hep⟩ := he
  rw [fieldValidate_field_eq checker req row p.1 p.2 e hep]
  exact List.mem_map_of_mem _ hp

theorem filter_fieldValidate_self (checker : Checker) (req : List String) (row : Row)
    (f : String) (fs : FieldSchema) :
    (fieldValidate checker req row f fs).filter (fun e => e.field == f)
      = fieldValidate checker req row f fs :=
  List.filter_eq_self.mpr fun e he => by
    simp [fieldValidate_field_eq checker req row f fs e he]

theorem filter_fieldValidate_ne (checker : Checker) (req : List String) (row : Row)
    (f g : String) (fs : FieldSchema) (hne : g ≠ f) :
    (fieldValidate checker req row g fs).filter (fun e => e.field == f) = [] :=
  List.filter_eq_nil_iff.mpr fun e he => by
    simp [fieldValidate_field_eq checker req row g fs e he, hne]

theorem filter_flatMap_fieldValidate (checker : Checker) (req : List String)
    (row : Row) (f : String) (fs : FieldSchema) :
    ∀ props : List (String × FieldSchema), (props.map Prod.fst).Nodup →
      (f, fs) ∈ props →
      (props.flatMap fun p => fieldValidate checker req row p.1 p.2).filter
          (fun e => e.field == f)
        = fieldValidate checker req row f fs := by
  intro props
  induction props with
  | nil => intro _ h; simp at h
  | cons p t ih =>
    intro hnd hmem
    simp only [List.map_cons, List.nodup_cons] at hnd
    rw [List.flatMap_cons, List.filter_append]
    rcases List.mem_cons.mp hmem with heq | hmem'
    · cases heq
      rw [filter_fieldValidate_self]
      have hrest : (t.flatMap fun p => fieldValidate checker req row p.1 p.2).filter
          (fun e => e.field == f) = [] := by
        refine List.filter_eq_nil_iff.mpr fun e he => ?_
        have hf := flatMap_fieldValidate_field_mem checker req row t e he
        intro hbeq
        exact hnd.1 (by rwa [beq_iff_eq.mp hbeq] at hf)
      rw [hrest, List.append_nil]
    · have hf : f ∈ t.map Prod.fst := List.mem_map_of_mem Prod.fst hmem'
      have hne : p.1 ≠ f := fun h => hnd.1 (h ▸ hf)
      rw [filter_fieldValidate_ne checker req row f p.1 p.2 hne,
        ih hnd.2 hmem', List.nil_append]

theorem validateRow_filter_eq (checker : Checker) (s : RecordSchema) (row : Row)
    (f : String) (fs : FieldSchema)
    (hnd : (s.properties.map Prod.fst).Nodup) (hmem : (f, fs) ∈ s.properties) :
    (validateRow checker s row).filter (fun e => e.field == f)
      = fieldValidate checker s.required row f fs :=
  filter_flatMap_fieldValidate checker s.required row f fs s.properties hnd hmem

theorem flatMap_congr_of_mem {α β : Type} (l : List α) (f g : α → List β)
    (h : ∀ a ∈ l, f a = g a) : l.flatMap f = l.flatMap g := by
  induction l with
  | nil => rfl
  | cons a t ih =>
    rw [List.flatMap_cons, List.flatMap_cons, h a (List.mem_cons_self a t),
      ih fun b hb => h b (List.mem_cons_of_mem a hb)]

theorem fieldValidate_eq_nil (checker : Checker) (req : List String) (row : Row)
    (f : String) (fs : FieldSchema)
    (hreq : f ∈ req → isMissingRequired (List.lookup f row) = false)
    (hok : ∀ v, List.lookup f row = some v → checker fs v = []) :
    fieldValidate checker req row f fs = [] := by
  by_cases hc : f ∈ req
  · have hm := hreq hc
    cases hv : List.lookup f row with
    | none => rw [hv] at hm; simp [isMissingRequired] at hm
    | some v =>
      rw [hv] at hm
      simp [fieldValidate, hc, hv, hm, checkerErrors, hok v hv]
  · cases hv : List.lookup f row with
    | none => simp [fieldValidate, hc, hv, isNullish]
    | some v =>
      by_cases hn : isNullish (some v) = true
      · simp [fieldValidate, hc, hv, hn]
      · simp [fieldValidate, hc, hv, hn, checkerErrors, hok v hv]

/-! ## Helper lemmas: column generation -/

theorem applyTypeConfig_field_headerName (f : String) (fs : FieldSchema) (c : ColDef) :
    (applyTypeConfig f fs c).field = c.field ∧
      (applyTypeConfig f fs c).headerName = c.headerName := by
  unfold applyTypeConfig
  split
  any_goals split
  any_goals split
  all_goals exact ⟨rfl, rfl⟩

theorem applyHidden_projs (fs : FieldSchema) (c : ColDef) :
    (applyHidden fs c).field = c.field ∧
      (applyHidden fs c).headerName = c.headerName ∧
      (applyHidden fs c).cellEditor = c.cellEditor ∧
      (applyHidden fs c).cellEditorParamsValues = c.cellEditorParamsValues ∧
      (applyHidden fs c).valueFormatterCurrency = c.valueFormatterCurrency := by
  unfold applyHidden
  split <;> exact ⟨rfl, rfl, rfl, rfl, rfl⟩

theorem applyWidth_projs (fs : FieldSchema) (c : ColDef) :
    (applyWidth fs c).field = c.field ∧
      (applyWidth fs c).headerName = c.headerName ∧
      (applyWidth fs c).cellEditor = c.cellEditor ∧
      (applyWidth fs c).cellEditorParamsValues = c.cellEditorParamsValues ∧
      (applyWidth fs c).valueFormatterCurrency = c.valueFormatterCurrency := by
  unfold applyWidth
  split
  any_goals split
  all_goals exact ⟨rfl, rfl, rfl, rfl, rfl⟩

theorem applyRequiredMark_projs (f : String) (s : RecordSchema) (c : ColDef) :
    (applyRequiredMark f s c).field = c.field ∧
      (applyRequiredMark f s c).cellEditor = c.cellEditor ∧
      (applyRequiredMark f s c).cellEditorParamsValues = c.cellEditorParamsValues ∧
      (applyRequiredMark f s c).valueFormatterCurrency = c.valueFormatterCurrency := by
  unfold applyRequiredMark
  split <;> exact ⟨rfl, rfl, rfl, rfl⟩

theorem applyRequiredMark_headerName (f : String) (s : RecordSchema) (c : ColDef) :
    (applyRequiredMark f s c).headerName =
      if s.required.contains f then some (jsStringOr c.headerName f ++ "*")
      else c.headerName := by
  unfold applyRequiredMark
  split <;> simp_all

theorem jsStringOr_self (a : Option String) (b : String) :
    jsStringOr (some (jsStringOr a b)) b = jsStringOr a b := by
  cases a with
  | none =>
    simp only [jsStringOr]
    split <;> simp_all
  | some t =>
    by_cases ht : t = ""
    · subst ht
      simp only [jsStringOr]
      split <;> simp_all
    · simp [jsStringOr, ht]

theorem editorKind_congr (c d : ColDef) (h1 : c.cellEditor = d.cellEditor)
    (h2 : c.cellEditorParamsValues = d.cellEditorParamsValues) :
    c.editorKind = d.editorKind := by
  unfold ColDef.editorKind
  rw [h1, h2]

theorem getDefaultColDef_field_eq (f : String) (fs : FieldSchema) (c : ColDef)
    (s : RecordSchema) : (getDefaultColDef f fs c s).field = c.field := by
  unfold getDefaultColDef
  rw [(applyRequiredMark_projs f s _).1, (applyWidth_projs fs _).1,
    (applyHidden_projs fs _).1, (applyTypeConfig_field_headerName f fs c).1]

theorem getDefaultColDef_editorKind_eq (f : String) (fs : FieldSchema) (c : ColDef)
    (s : RecordSchema) :
    (getDefaultColDef f fs c s).editorKind = (applyTypeConfig f fs c).editorKind := by
  unfold getDefaultColDef
  refine editorKind_congr _ _ ?_ ?_
  · rw [(applyRequiredMark_projs f s _).2.1, (applyWidth_projs fs _).2.2.1,
      (applyHidden_projs fs _).2.2.1]
  · rw [(applyRequiredMark_projs f s _).2.2.1, (applyWidth_projs fs _).2.2.2.1,
      (applyHidden_projs fs _).2.2.2.1]

theorem getDefaultColDef_vfc_eq (f : String) (fs : FieldSchema) (c : ColDef)
    (s : RecordSchema) :
    (getDefaultColDef f fs c s).valueFormatterCurrency
      = (applyTypeConfig f fs c).valueFormatterCurrency := by
  unfold getDefaultColDef
  rw [(applyRequiredMark_projs f s _).2.2.2, (applyWidth_projs fs _).2.2.2.2,
    (applyHidden_projs fs _).2.2.2.2]

theorem getDefaultColDef_headerName_eq (f : String) (fs : FieldSchema)
    (s : RecordSchema) :
    (getDefaultColDef f fs (mkBaseColDef f fs) s).headerName
      = some (specLabel f fs s.required) := by
  unfold getDefaultColDef
  rw [applyRequiredMark_headerName, (applyWidth_projs fs _).2.1,
    (applyHidden_projs fs _).2.1,
    (applyTypeConfig_field_headerName f fs (mkBaseColDef f fs)).2]
  show (if s.required.contains f then
      some (jsStringOr (some (jsStringOr fs.title f)) f ++ "*")
    else some (jsStringOr fs.title f)) = some (specLabel f fs s.required)
  unfold specLabel
  split
  · rw [jsStringOr_self]
    rfl
  · show some (jsStringOr fs.title f) = some (jsStringOr fs.title f ++ "")
    rw [String.append_empty]

theorem applyTypeConfig_vfc (f : String) (fs : FieldSchema) (c : ColDef)
    (hc : c.valueFormatterCurrency = false) :
    (applyTypeConfig f fs c).valueFormatterCurrency
      = ((decide (fs.type = some "number") || decide (fs.type = some "integer"))
          && isCurrencyField f) := by
  unfold applyTypeConfig
  split
  · rename_i heq
    cases hcur : isCurrencyField f <;> simp [hc, hcur, heq]
  · rename_i heq
    cases hcur : isCurrencyField f <;> simp [hc, hcur, heq]
  · split
    · simp_all
    · split <;> simp_all
  · simp_all
  · simp_all

theorem applyTypeConfig_editorKind (f : String) (fs : FieldSchema) (c : ColDef)
    (hce : c.cellEditor = none) :
    (applyTypeConfig f fs c).editorKind = specEditorKind fs := by
  unfold applyTypeConfig specEditorKind
  split
  · rfl
  · rfl
  · split
    · rfl
    · split
      · rfl
      · simp [ColDef.editorKind, hce]
  · rfl
  · simp [ColDef.editorKind, hce]

/-! ## Concrete fixtures used by witnesses and counterexamples -/

/-- Scenario A/B schema of spec §8: a required patterned `id` and an
optional bounded `age`. -/
def fsIdFx : FieldSchema :=
  { type := some "string", pattern := some "^[A-Z]{2}[0-9]{4}$" }

def fsAgeFx : FieldSchema := { type := some "integer", minimum := some 18 }

def schemaFx : RecordSchema :=
  { properties := [("id", fsIdFx), ("age", fsAgeFx)], required := ["id"] }

def rowMissingFx : Row := [("age", Value.vnum 15)]

def rowFullFx : Row := [("id", Value.vstr "AB12"), ("age", Value.vnum 22)]

def rowNullAgeFx : Row := [("id", Value.vstr "AB12"), ("age", Value.vnull)]

def rowEmptyAgeFx : Row := [("id", Value.vstr "AB12"), ("age", Value.vstr "")]

def rowExtraFx : Row := [("id", Value.vstr "ab12"), ("bogus", Value.vstr "x")]

/-- A checker that always reports two violations, one with a message and one
without. -/
def chkReportFx : Checker := fun _ _ => [some "must match pattern", none]

/-- A checker that accepts everything. -/
def chkNilFx : Checker := fun _ _ => []

def fsEnumIntFx : FieldSchema :=
  { type := some "integer", enum := some [Value.vnum 1, Value.vnum 2] }

def schemaEnumFx : RecordSchema := { properties := [("rank", fsEnumIntFx)] }

def fsEmptyTitleFx : FieldSchema := { type := some "string", title := some "" }

def schemaTitleFx : RecordSchema := { properties := [("name", fsEmptyTitleFx)] }

/-- Scenario D of spec §8. -/
def fsSalaryFx : FieldSchema := { type := some "number", minimum := some (1 / 100) }

def schemaSalaryFx : RecordSchema :=
  { properties := [("salary", fsSalaryFx)], required := ["salary"] }

/-! ## Claim theorems: row validation -/

/-- C1: for every schema and row, if a field named in `schema.required` has a
value that is absent, null, or the empty string, then `validateRow` emits
exactly one error for that field, with message `"<field> is required"`, and no
constraint-checker error for that field is also reported (the checker is
universally quantified, so no type/pattern/range/format error can appear for
the field no matter what the checker would say). -/
theorem required_missing_exactly_one_error (checker : Checker) (s : RecordSchema)
    (row : Row) (f : String) (fs : FieldSchema)
    (hnd : (s.properties.map Prod.fst).Nodup) (hmem : (f, fs) ∈ s.properties)
    (hreq : f ∈ s.required)
    (hmiss : isMissingRequired (List.lookup f row) = true) :
    (validateRow checker s row).filter (fun e => e.field == f)
      = [{ field := f, message := f ++ " is required" }] := by
  rw [validateRow_filter_eq checker s row f fs hnd hmem]
  simp [fieldValidate, hreq, hmiss]

/-- C2: the error sequence of `validateRow` is its per-field groups
concatenated in the schema's property-declaration order (all errors of an
earlier-declared property precede all errors of a later-declared one), and
each field's group is exactly the per-field result — the "is required" error
or the checker's reports in the checker's own order. -/
theorem errors_grouped_in_declaration_order (checker : Checker) (s : RecordSchema)
    (row : Row) (hnd : (s.properties.map Prod.fst).Nodup) :
    validateRow checker s row
        = s.properties.flatMap
            (fun p => (validateRow checker s row).filter (fun e => e.field == p.1))
      ∧ ∀ f fs, (f, fs) ∈ s.properties →
          (validateRow checker s row).filter (fun e => e.field == f)
            = fieldValidate checker s.required row f fs := by
  constructor
  · conv_lhs => rw [validateRow]
    exact (flatMap_congr_of_mem s.properties _ _ fun p hp =>
      validateRow_filter_eq checker s row p.1 p.2 hnd hp).symm
  · exact fun f fs hmem => validateRow_filter_eq checker s row f fs hnd hmem

/-- C3: a row in which every required field is present (not absent, null or
empty) and on which the per-field checker reports no violation for any
present value validates cleanly: `validateRow` returns the empty list. -/
theorem valid_row_yields_no_errors (checker : Checker) (s : RecordSchema) (row : Row)
    (hreq : ∀ f ∈ s.required, isMissingRequired (List.lookup f row) = false)
    (hok : ∀ f fs, (f, fs) ∈ s.properties →
      ∀ v, List.lookup f row = some v → checker fs v = []) :
    validateRow checker s row = [] := by
  have h : ∀ p ∈ s.properties,
      fieldValidate checker s.required row p.1 p.2 = [] := fun p hp =>
    fieldValidate_eq_nil checker s.required row p.1 p.2
      (fun hm => hreq p.1 hm) (fun v hv => hok p.1 p.2 hp v hv)
  rw [validateRow, flatMap_congr_of_mem s.properties _ (fun _ => []) h]
  simp

/-- C4: an optional field (not named in `schema.required`) whose value is
absent or null contributes no error at all, for any checker and any declared
constraints. -/
theorem optional_nullish_no_error (checker : Checker) (s : RecordSchema) (row : Row)
    (f : String) (hopt : f ∉ s.required)
    (hnull : isNullish (List.lookup f row) = true) :
    (validateRow checker s row).filter (fun e => e.field == f) = [] := by
  refine List.filter_eq_nil_iff.mpr fun e he hbeq => ?_
  have hfe : e.field = f := by simpa using hbeq
  simp only [validateRow, List.mem_flatMap] at he
  obtain ⟨p, hp, hep⟩ := he
  have hpf : p.1 = f := by rw [← fieldValidate_field_eq checker s.required row p.1 p.2 e hep, hfe]
  rw [hpf] at hep
  simp [fieldValidate, hopt, hnull] at hep

/-- C8: `validateRow` is a total function by construction (it is a plain
recursion-free mapping to a list, never an exception); moreover whenever the
checker runs on a field's value and reports a violation with no descriptive
message, the emitted error carries the fallback message `"Invalid <field>"`.
The hypotheses are exactly the conditions under which the source reaches the
checker: a required field's value is not absent/null/empty, an optional
field's value is not absent/null (an optional empty string does reach it). -/
theorem checker_default_message_fallback (checker : Checker) (s : RecordSchema)
    (row : Row) (f : String) (fs : FieldSchema) (v : Value)
    (hmem : (f, fs) ∈ s.properties)
    (hval : List.lookup f row = some v)
    (hreq : f ∈ s.required → isMissingRequired (some v) = false)
    (hopt : f ∉ s.required → isNullish (some v) = false)
    (hnone : none ∈ checker fs v) :
    { field := f, message := "Invalid " ++ f } ∈ validateRow checker s row := by
  have hck : ({ field := f, message := "Invalid " ++ f } : ValidationError)
      ∈ checkerErrors checker f fs (some v) := by
    simp only [checkerErrors, List.mem_map]
    exact ⟨none, hnone, rfl⟩
  simp only [validateRow, List.mem_flatMap]
  refine ⟨(f, fs), hmem, ?_⟩
  by_cases hc : f ∈ s.required
  · simpa [fieldValidate, hval, hc, hreq hc] using hck
  · simpa [fieldValidate, hval, hc, hopt hc] using hck

/-- C9: every error `validateRow` returns names a field that is a declared
key of `schema.properties`; no error ever refers to a field outside the
schema, whatever extra keys the row carries. -/
theorem error_field_is_declared_property (checker : Checker) (s : RecordSchema)
    (row : Row) :
    ∀ e ∈ validateRow checker s row, e.field ∈ s.properties.map Prod.fst :=
  fun e he => flatMap_fieldValidate_field_mem checker s.required row s.properties e he

/-- C10: an optional field whose value is the empty string is not skipped:
its group of errors is exactly the checker's reports on `""` (so a
`minLength` or `format` constraint can flag an optional empty string). -/
theorem optional_empty_string_is_checked (checker : Checker) (s : RecordSchema)
    (row : Row) (f : String) (fs : FieldSchema)
    (hnd : (s.properties.map Prod.fst).Nodup) (hmem : (f, fs) ∈ s.properties)
    (hopt : f ∉ s.required)
    (hv : List.lookup f row = some (Value.vstr "")) :
    (validateRow checker s row).filter (fun e => e.field == f)
      = (checker fs (Value.vstr "")).map
          (fun m => { field := f, message := m.getD ("Invalid " ++ f) }) := by
  rw [validateRow_filter_eq checker s row f fs hnd hmem]
  simp [fieldValidate, hopt, hv, isNullish, checkerErrors]

/-! ## Claim theorems: column generation -/

/-- C5 counterexample: a `FieldSchema` whose `title` is present but is the
empty string.  The claim says the label is the title whenever it is present;
the code's `schema.title || field` treats the empty string as falsy and uses
the field name instead. -/
theorem empty_title_label_uses_field_name :
    fsEmptyTitleFx.title = some "" ∧
      (generatedColumnDefs schemaTitleFx).map (fun c => c.headerName) = [some "name"] ∧
      (some "name" : Option String) ≠ some "" := by
  exact ⟨rfl, by decide, by decide⟩

/-- C5 (amended): the column generator produces exactly one descriptor per
key of `schema.properties`, in declaration order; each descriptor's label is
the field's `title` when present and non-empty, else the field name; and for
every required field the label is that base label with a single `"*"`
appended. -/
theorem generated_columns_one_per_property (s : RecordSchema) :
    (generatedColumnDefs s).map (fun c => (c.field, c.headerName))
      = s.properties.map (fun p => (p.1, some (specLabel p.1 p.2 s.required))) := by
  unfold generatedColumnDefs
  rw [List.map_map]
  refine List.map_congr_left fun p _ => ?_
  show ((getDefaultColDef p.1 p.2 (mkBaseColDef p.1 p.2) s).field,
        (getDefaultColDef p.1 p.2 (mkBaseColDef p.1 p.2) s).headerName)
      = (p.1, some (specLabel p.1 p.2 s.required))
  rw [getDefaultColDef_field_eq, getDefaultColDef_headerName_eq]
  rfl

/-- C6 counterexample: a field of type `integer` carrying an `enum`.  The
claim says `enum` wins regardless of the type; the code examines `enum`
only inside the `"string"` case of the type switch, so the descriptor gets
the numeric editor. -/
theorem enum_integer_editor_is_numeric :
    fsEnumIntFx.enum = some [Value.vnum 1, Value.vnum 2] ∧
      (getDefaultColDef "rank" fsEnumIntFx (mkBaseColDef "rank" fsEnumIntFx)
          schemaEnumFx).editorKind = EditorKind.numeric ∧
      EditorKind.numeric ≠ EditorKind.choiceList [Value.vnum 1, Value.vnum 2] := by
  exact ⟨rfl, by decide, by decide⟩

/-- C6 (amended): the editor kind is selected by the declared `type`:
`integer`/`number` → numeric (even when an `enum` is present); `string` with
an `enum` → choice list carrying the enum values in declared order; `string`
without an `enum` but with format `"date"`/`"date-time"` → date editor;
`boolean` → checkbox; anything else → plain text. -/
theorem editor_kind_selected_by_type (f : String) (fs : FieldSchema)
    (s : RecordSchema) :
    (getDefaultColDef f fs (mkBaseColDef f fs) s).editorKind = specEditorKind fs := by
  rw [getDefaultColDef_editorKind_eq]
  exact applyTypeConfig_editorKind f fs (mkBaseColDef f fs) rfl

/-- C7: a generated descriptor is marked for currency-style display
formatting exactly when the field's declared type is `number` or `integer`
and its name, lowercased, contains one of the substrings `"price"`,
`"salary"`, `"cost"`, `"amount"`; fields of any other type never receive the
mark. -/
theorem currency_mark_iff (f : String) (fs : FieldSchema) (s : RecordSchema) :
    (getDefaultColDef f fs (mkBaseColDef f fs) s).valueFormatterCurrency = true
      ↔ ((fs.type = some "number" ∨ fs.type = some "integer")
          ∧ isCurrencyField f = true) := by
  rw [getDefaultColDef_vfc_eq, applyTypeConfig_vfc f fs (mkBaseColDef f fs) rfl]
  simp

/-- C7 witness: spec §8 scenario D — a `number` field named `salary` is
marked for currency-style formatting. -/
theorem currency_mark_iff_witness :
    (getDefaultColDef "salary" fsSalaryFx (mkBaseColDef "salary" fsSalaryFx)
        schemaSalaryFx).valueFormatterCurrency = true :=
  (currency_mark_iff "salary" fsSalaryFx schemaSalaryFx).mpr ⟨Or.inl rfl, by decide⟩

/-! ## Witnesses for the row-validation theorems -/

/-- C1 witness: scenario B of spec §8 — `id` required and absent, checker
would still report two violations. -/
theorem required_missing_exactly_one_error_witness :
    "id" ∈ schemaFx.required ∧
      isMissingRequired (List.lookup "id" rowMissingFx) = true ∧
      (validateRow chkReportFx schemaFx rowMissingFx).filter (fun e => e.field == "id")
        = [{ field := "id", message := "id is required" }] :=
  ⟨by decide, by decide,
    required_missing_exactly_one_error chkReportFx schemaFx rowMissingFx "id" fsIdFx
      (by decide) (by decide) (by decide) (by decide)⟩

/-- C2 witness: the error list of a concrete row is its per-field groups in
declaration order. -/
theorem errors_grouped_in_declaration_order_witness :
    (schemaFx.properties.map Prod.fst).Nodup ∧
      validateRow chkReportFx schemaFx rowMissingFx
        = schemaFx.properties.flatMap
            (fun p => (validateRow chkReportFx schemaFx rowMissingFx).filter
              (fun e => e.field == p.1)) :=
  ⟨by decide,
    (errors_grouped_in_declaration_order chkReportFx schemaFx rowMissingFx (by decide)).1⟩

/-- C3 witness: a fully valid concrete row yields no errors. -/
theorem valid_row_yields_no_errors_witness :
    isMissingRequired (List.lookup "id" rowFullFx) = false ∧
      validateRow chkNilFx schemaFx rowFullFx = [] :=
  ⟨by decide,
    valid_row_yields_no_errors chkNilFx schemaFx rowFullFx (by decide)
      (fun _ _ _ _ _ => rfl)⟩

/-- C4 witness: optional `age` set to null contributes no error even though
the checker would report violations. -/
theorem optional_nullish_no_error_witness :
    "age" ∉ schemaFx.required ∧
      isNullish (List.lookup "age" rowNullAgeFx) = true ∧
      (validateRow chkReportFx schemaFx rowNullAgeFx).filter (fun e => e.field == "age")
        = [] :=
  ⟨by decide, by decide,
    optional_nullish_no_error chkReportFx schemaFx rowNullAgeFx "age"
      (by decide) (by decide)⟩

/-- C8 witness: a messageless checker report on an optional field holding
the empty string surfaces as `"Invalid age"` — the checker does run there,
since the optional-field skip test is null/undefined only. -/
theorem checker_default_message_fallback_witness :
    none ∈ chkReportFx fsAgeFx (Value.vstr "") ∧
      List.lookup "age" rowEmptyAgeFx = some (Value.vstr "") ∧
      isNullish (some (Value.vstr "")) = false ∧
      { field := "age", message := "Invalid age" }
        ∈ validateRow chkReportFx schemaFx rowEmptyAgeFx :=
  ⟨by decide, by decide, by decide,
    checker_default_message_fallback chkReportFx schemaFx rowEmptyAgeFx "age" fsAgeFx
      (Value.vstr "") (by decide) (by decide) (by decide) (by decide) (by decide)⟩

/-- C9 witness: on a row carrying an extra key, every reported error still
names a declared property. -/
theorem error_field_is_declared_property_witness :
    ({ field := "id", message := "must match pattern" } : ValidationError)
        ∈ validateRow chkReportFx schemaFx rowExtraFx ∧
      ({ field := "id", message := "must match pattern" } : ValidationError).field
        ∈ schemaFx.properties.map Prod.fst :=
  ⟨by decide,
    error_field_is_declared_property chkReportFx schemaFx rowExtraFx _ (by decide)⟩

/-- C10 witness: optional `age` holding the empty string is checked, and the
checker's two reports surface for it. -/
theorem optional_empty_string_is_checked_witness :
    "age" ∉ schemaFx.required ∧
      List.lookup "age" rowEmptyAgeFx = some (Value.vstr "") ∧
      (validateRow chkReportFx schemaFx rowEmptyAgeFx).filter (fun e => e.field == "age")
        = (chkReportFx fsAgeFx (Value.vstr "")).map
            (fun m => { field := "age", message := m.getD ("Invalid " ++ "age") }) :=
  ⟨by decide, by decide,
    optional_empty_string_is_checked chkReportFx schemaFx rowEmptyAgeFx "age" fsAgeFx
      (by decide) (by decide) (by decide) (by decide)⟩

end SchemaGrid
